import Mathlib

/-!
# Verovio tablature tuning: pitch numbers and staff positions

A shallow embedding of `Tuning::CalcPitchPos` and `Tuning::CalcPitchNumber`
(src/src/tuning.cpp) and proofs of properties of the two functions.

Modelling conventions

* The C++ type `int` is 32 bits wide. Its values are the integers from
  `INT_MIN` to `INT_MAX`, and every addition, subtraction and multiplication
  of the source is followed by `wrapInt`, the reduction modulo 2^32 into that
  range: the compiled code computes in two's complement and wraps where the
  exact result is not representable.
* A read `pitch[i]` of a static array is modelled by `readArray`, which yields
  `none` when `i` is not an index of the array. `CalcPitchNumber` therefore
  returns `Option Int`: `some v` when the C++ function returns `v`, and `none`
  when it reads outside the selected table (undefined behaviour in C++).
* `sizeof(int)` and the sentinel stored in an unset `@oct` are fixed by
  declarations outside src/; they are the fields of `Target`.
* The search for a course descendant is outside src/. `Tuning.FindCourse` is
  its result for each course number; `FindDescendantByComparison` models it on
  the list of the course descendants in document order, after section 4.3 of
  the specification.
-/

namespace vrv

/-- Pitch names: the eight enumerators are exactly the case labels of the
switch of `CalcPitchNumber` (tuning.cpp, lines 84-93). -/
inductive data_PITCHNAME
  | PITCHNAME_NONE
  | PITCHNAME_c
  | PITCHNAME_d
  | PITCHNAME_e
  | PITCHNAME_f
  | PITCHNAME_g
  | PITCHNAME_a
  | PITCHNAME_b
  deriving DecidableEq, Repr

/-- Modelled from the spec: the declaration of the enumeration of written
accidentals is not under src/. The enumerators `ACCIDENTAL_WRITTEN_s` and
`ACCIDENTAL_WRITTEN_f` are named in tuning.cpp (lines 101-104);
`ACCIDENTAL_WRITTEN_NONE` is the value of an accidental that is not set;
`other k` stands for any further enumerator. -/
inductive data_ACCIDENTAL_WRITTEN
  | ACCIDENTAL_WRITTEN_NONE
  | ACCIDENTAL_WRITTEN_s
  | ACCIDENTAL_WRITTEN_f
  | other (k : Nat)
  deriving DecidableEq, Repr

/-- Modelled from the spec: the declaration of the notation type enumeration
is not under src/. The four tablature enumerators are named in tuning.cpp
(lines 61-65 and 141-142); `other k` stands for any further enumerator
(non-tablature notation types, or none). -/
inductive data_NOTATIONTYPE
  | NOTATIONTYPE_tab_guitar
  | NOTATIONTYPE_tab_lute_french
  | NOTATIONTYPE_tab_lute_italian
  | NOTATIONTYPE_tab_lute_german
  | other (k : Nat)
  deriving DecidableEq, Repr

/-- Modelled from the spec: the declaration of the tuning standard enumeration
is not under src/. `COURSETUNING_NONE`, `COURSETUNING_guitar_drop_D` and
`COURSETUNING_lute_renaissance_6` are the case labels of the switch of
tuning.cpp (lines 125-138); `other k` stands for any further enumerator, all
of which reach the `default` label. -/
inductive data_COURSETUNING
  | COURSETUNING_NONE
  | COURSETUNING_guitar_drop_D
  | COURSETUNING_lute_renaissance_6
  | other (k : Nat)
  deriving DecidableEq, Repr

open data_PITCHNAME data_ACCIDENTAL_WRITTEN data_NOTATIONTYPE data_COURSETUNING

/-- Constants fixed by declarations outside src/: the number of bytes of an
`int` on the compilation target (at least 1 in C++; 4 where a byte has 8
bits), and `MEI_UNSET_OCT`, the value an octave attribute holds while it is
not set. -/
structure Target where
  sizeofInt : Nat
  sizeofInt_pos : 0 < sizeofInt
  MEI_UNSET_OCT : Int

/-- The usual target: 4-byte `int`; the unset octave is taken to be stored as
-127, a value no octave of the examples below has. -/
def target32 : Target := ⟨4, by decide, -127⟩

/-- A hypothetical target on which an `int` is one byte wide. -/
def target1 : Target := ⟨1, by decide, -127⟩

/-- The `course` element as far as `CalcPitchNumber` reads it: the attribute
members behind `GetPname()`, `GetOct()` and `GetAccid()`. -/
structure Course where
  m_pname : data_PITCHNAME
  m_oct : Int
  m_accid : data_ACCIDENTAL_WRITTEN
  deriving DecidableEq, Repr

/-- The getter of the pitch name. -/
def Course.GetPname (c : Course) : data_PITCHNAME := c.m_pname

/-- The getter of the octave. -/
def Course.GetOct (c : Course) : Int := c.m_oct

/-- The getter of the accidental. -/
def Course.GetAccid (c : Course) : data_ACCIDENTAL_WRITTEN := c.m_accid

/-- Modelled from the spec: the body of `HasPname` is not under src/. The
generated headers document every presence checker as "returns true if the
attribute class is set (e.g., not equal to the default value)"
(atts_header.h, lines 47-51), and the unset pitch name is `PITCHNAME_NONE`. -/
def Course.HasPname (c : Course) : Bool := decide (c.m_pname ≠ PITCHNAME_NONE)

/-- Modelled from the spec: the body of `HasOct` is not under src/; by the
same documentation it compares the member with its default `MEI_UNSET_OCT`. -/
def Course.HasOct (t : Target) (c : Course) : Bool := decide (c.m_oct ≠ t.MEI_UNSET_OCT)

/-- Modelled from the spec: the body of `HasAccid` is not under src/; by the
same documentation it compares the member with `ACCIDENTAL_WRITTEN_NONE`. -/
def Course.HasAccid (c : Course) : Bool := decide (c.m_accid ≠ ACCIDENTAL_WRITTEN_NONE)

/-- The `tuning` element as far as the two functions read it: the attribute
`@tuning.standard`, and the result of the descendant search
`FindDescendantByComparison` for a `course` child whose `@n` is the decimal
string of the requested course number (tuning.cpp, lines 77-78). The search
itself belongs to the document tree and is a parameter here. -/
structure Tuning where
  m_tuningStandard : data_COURSETUNING
  FindCourse : Int → Option Course

/-- The getter of `@tuning.standard`. -/
def Tuning.GetTuningStandard (self : Tuning) : data_COURSETUNING := self.m_tuningStandard

/-- The least value of an `int`. -/
def INT_MIN : Int := -2147483648

/-- The greatest value of an `int`. -/
def INT_MAX : Int := 2147483647

/-- The integer `x` is representable as an `int`. -/
def fitsInt (x : Int) : Prop := INT_MIN ≤ x ∧ x ≤ INT_MAX

instance (x : Int) : Decidable (fitsInt x) := by
  unfold fitsInt
  infer_instance

/-- The `int` that an exact result `x` becomes in the compiled code: the
integer congruent to `x` modulo 2^32 between `INT_MIN` and `INT_MAX`. -/
def wrapInt (x : Int) : Int := (x + 2147483648) % 4294967296 - 2147483648

/-- The operator `+` on `int`. -/
def addInt (a b : Int) : Int := wrapInt (a + b)

/-- The operator `-` on `int`. -/
def subInt (a b : Int) : Int := wrapInt (a - b)

/-- The operator `*` on `int`. -/
def mulInt (a b : Int) : Int := wrapInt (a * b)

/-- The C library function `abs` on `int`: the negation wraps, so that
`abs(INT_MIN)` is `INT_MIN`. -/
def abs (x : Int) : Int := if x < 0 then subInt 0 x else x

/-- Embedding of `Tuning::CalcPitchPos` (tuning.cpp, lines 58-68). -/
def Tuning.CalcPitchPos (course : Int) (notationType : data_NOTATIONTYPE) (lines : Int) : Int :=
  match notationType with
  | NOTATIONTYPE_tab_lute_french => addInt (mulInt (subInt lines (min course 7)) 2) 1
  | NOTATIONTYPE_tab_lute_italian => mulInt (subInt course 1) 2
  | NOTATIONTYPE_tab_guitar => mulInt (abs (subInt course lines)) 2
  | _ => mulInt (abs (subInt course lines)) 2

/-- Modern guitar, E4 B3 G3 D3 A2 E2 (tuning.cpp, line 114). -/
def guitarPitch : List Int := [64, 59, 55, 50, 45, 40]

/-- Modern guitar drop D, E4 B3 G3 D3 A2 D2 (tuning.cpp, line 117). -/
def guitarDropDPitch : List Int := [64, 59, 55, 50, 45, 38]

/-- Six course renaissance lute, G4 D4 A3 F3 C3 G2 (tuning.cpp, line 120). -/
def lutePitch : List Int := [67, 62, 57, 53, 48, 43]

/-- The C++ operator `sizeof` applied to a static array of `int`: the number
of bytes of the array, that is its entry count times `sizeof(int)`. -/
def sizeofArray (t : Target) (a : List Int) : Int := (a.length : Int) * (t.sizeofInt : Int)

/-- The read `a[i]` of a static array: `none` when `i` is not an index of it. -/
def readArray (a : List Int) (i : Int) : Option Int :=
  if 0 ≤ i then a[i.toNat]? else none

/-- The condition of the first tier (tuning.cpp, line 80): the search found a
course, and it has a pitch name and an octave. -/
def explicitTuning (t : Target) (courseTuning : Option Course) : Option Course :=
  courseTuning.filter (fun c => c.HasPname && c.HasOct t)

/-- The switch over the pitch name (tuning.cpp, lines 83-93): distance in
semitones from the C that starts the octave. -/
def midiBase (pname : data_PITCHNAME) : Int :=
  match pname with
  | PITCHNAME_c => 0
  | PITCHNAME_d => 2
  | PITCHNAME_e => 4
  | PITCHNAME_f => 5
  | PITCHNAME_g => 7
  | PITCHNAME_a => 9
  | PITCHNAME_b => 11
  | PITCHNAME_NONE => 0

/-- The accidental of the course tuning (tuning.cpp, lines 99-105). -/
def alter (courseTuning : Course) : Int :=
  if courseTuning.HasAccid then
    if courseTuning.GetAccid = ACCIDENTAL_WRITTEN_s then 1
    else if courseTuning.GetAccid = ACCIDENTAL_WRITTEN_f then -1
    else 0
  else 0

/-- The selection of the preset (tuning.cpp, lines 122-153): the table
`pitch` and the bound `pitchSize`. -/
def Tuning.selectPitch (t : Target) (self : Tuning) (notationType : data_NOTATIONTYPE) :
    List Int × Int :=
  match self.GetTuningStandard with
  | COURSETUNING_guitar_drop_D => (guitarDropDPitch, sizeofArray t guitarDropDPitch)
  | COURSETUNING_lute_renaissance_6 => (lutePitch, sizeofArray t lutePitch)
  | _ =>
    if notationType = NOTATIONTYPE_tab_lute_french ∨ notationType = NOTATIONTYPE_tab_lute_italian
        ∨ notationType = NOTATIONTYPE_tab_lute_german then
      (lutePitch, sizeofArray t lutePitch)
    else
      (guitarPitch, sizeofArray t guitarPitch)

/-- Embedding of `Tuning::CalcPitchNumber` (tuning.cpp, lines 70-156). The
result is `none` when the function reads outside the selected table. -/
def Tuning.CalcPitchNumber (t : Target) (self : Tuning) (course fret : Int)
    (notationType : data_NOTATIONTYPE) : Option Int :=
  match explicitTuning t (self.FindCourse course) with
  | some courseTuning =>
    let octave := courseTuning.GetOct
    some (addInt (addInt (addInt (mulInt (addInt octave 1) 12) (midiBase courseTuning.GetPname))
      (alter courseTuning)) fret)
  | none =>
    let pitch := (self.selectPitch t notationType).1
    let pitchSize := (self.selectPitch t notationType).2
    if 0 < course ∧ course ≤ pitchSize then
      (readArray pitch (subInt course 1)).map (fun p => addInt p fret)
    else some 0

/-- A tuning element without any course child. -/
def Tuning.bare (ts : data_COURSETUNING) : Tuning := ⟨ts, fun _ => none⟩

/-- A tuning element whose search for a course finds `c` for course number `n`
and nothing for any other number. -/
def Tuning.withCourse (ts : data_COURSETUNING) (n : Int) (c : Course) : Tuning :=
  ⟨ts, fun k => if k = n then some c else none⟩

/-- The semitone base of a pitch name in the words of the specification
(section 4.1): c:0, d:2, e:4, f:5, g:7, a:9, b:11, and 0 for none. -/
def spec_base : data_PITCHNAME → Int
  | PITCHNAME_c => 0
  | PITCHNAME_d => 2
  | PITCHNAME_e => 4
  | PITCHNAME_f => 5
  | PITCHNAME_g => 7
  | PITCHNAME_a => 9
  | PITCHNAME_b => 11
  | PITCHNAME_NONE => 0

/-- The accidental offset in the words of the specification (section 4.1):
sharp +1, flat -1, and 0 when no accidental is set. The specification knows no
other accidental; for those the offset is 0 as well. -/
def spec_offset : data_ACCIDENTAL_WRITTEN → Int
  | ACCIDENTAL_WRITTEN_s => 1
  | ACCIDENTAL_WRITTEN_f => -1
  | ACCIDENTAL_WRITTEN_NONE => 0
  | data_ACCIDENTAL_WRITTEN.other _ => 0

/-- The notation types for which the third tier assumes a lute. -/
def isLuteTab (notationType : data_NOTATIONTYPE) : Bool :=
  decide (notationType = NOTATIONTYPE_tab_lute_french ∨ notationType = NOTATIONTYPE_tab_lute_italian
    ∨ notationType = NOTATIONTYPE_tab_lute_german)

/-- The return statement of the second and third tier (tuning.cpp, line 155)
for a table `pitch` and a bound `pitchSize`. -/
def presetResult (pitch : List Int) (pitchSize course fret : Int) : Option Int :=
  if 0 < course ∧ course ≤ pitchSize then
    (readArray pitch (subInt course 1)).map (fun p => addInt p fret)
  else some 0

/-- The position in the words of the specification (section 4.5), computed
over the integers: French lute tablature (lines - min(course, 7)) * 2 + 1,
Italian lute tablature (course - 1) * 2, and abs(course - lines) * 2 for
guitar tablature and any other notation type. -/
def spec_CalcPitchPos (course : Int) (notationType : data_NOTATIONTYPE) (lines : Int) : Int :=
  match notationType with
  | NOTATIONTYPE_tab_lute_french => (lines - min course 7) * 2 + 1
  | NOTATIONTYPE_tab_lute_italian => (course - 1) * 2
  | _ => |course - lines| * 2

/-- The function `std::to_string` on `int`: the decimal numeral, with a minus
sign for a negative number (tuning.cpp, line 77). -/
def to_string (i : Int) : String := toString i

/-- Modelled from the spec: the class of the `course` element is not under
src/. A course descendant of the tuning element carries its course number, the
attribute `@n` whose text the search compares, and the members
`CalcPitchNumber` reads. -/
structure CourseElement where
  n : String
  course : Course

/-- Modelled from the spec: `FindDescendantByComparison` and the comparison
`AttNNumberLikeComparison` are not under src/. By section 4.3 of the
specification the search returns "the first descendant Course element whose
course-number attribute equals the requested value" and reports absence when
there is none. `children` lists the course descendants in document order; the
requested value is the text passed on line 77, `to_string course`. -/
def FindDescendantByComparison (children : List CourseElement) (course : Int) : Option Course :=
  (children.find? (fun e => decide (e.n = to_string course))).map (fun e => e.course)

/-- The tuning element with the tuning standard `ts` and the course
descendants `children`, in document order. -/
def Tuning.ofChildren (ts : data_COURSETUNING) (children : List CourseElement) : Tuning :=
  ⟨ts, FindDescendantByComparison children⟩

/-! ## Auxiliary lemmas -/

/-- A representable integer is not changed by the reduction. -/
theorem wrapInt_of_fitsInt (x : Int) (h : fitsInt x) : wrapInt x = x := by
  unfold fitsInt INT_MIN INT_MAX at h
  unfold wrapInt
  omega

/-- The reduction always yields an `int`. -/
theorem fitsInt_wrapInt (x : Int) : fitsInt (wrapInt x) := by
  unfold fitsInt INT_MIN INT_MAX wrapInt
  omega

theorem midiBase_eq_spec_base (p : data_PITCHNAME) : midiBase p = spec_base p := by
  cases p <;> rfl

theorem alter_eq_spec_offset (c : Course) : alter c = spec_offset c.m_accid := by
  obtain ⟨p, o, a⟩ := c
  cases a <;> simp [alter, Course.HasAccid, Course.GetAccid, spec_offset]

theorem explicitTuning_none (t : Target) : explicitTuning t none = none := rfl

theorem explicitTuning_some (t : Target) (c : Course) (hp : c.HasPname = true)
    (ho : c.HasOct t = true) : explicitTuning t (some c) = some c := by
  simp [explicitTuning, Option.filter, hp, ho]

theorem explicitTuning_partial (t : Target) (c : Course)
    (h : c.HasPname = false ∨ c.HasOct t = false) : explicitTuning t (some c) = none := by
  rcases h with h | h <;> simp [explicitTuning, Option.filter, h]

/-- The four wrapping operations of line 107 give the reduction of the exact
sum. -/
theorem pitch_sum_wrap (o b a f : Int) :
    addInt (addInt (addInt (mulInt (addInt o 1) 12) b) a) f
      = wrapInt ((o + 1) * 12 + b + a + f) := by
  unfold addInt mulInt wrapInt
  omega

/-- The first tier: the value returned when a usable course tuning is found. -/
theorem CalcPitchNumber_explicit (t : Target) (self : Tuning) (course fret : Int)
    (nt : data_NOTATIONTYPE) (c : Course) (h : explicitTuning t (self.FindCourse course) = some c) :
    Tuning.CalcPitchNumber t self course fret nt
      = some (wrapInt ((c.m_oct + 1) * 12 + spec_base c.m_pname + spec_offset c.m_accid + fret)) := by
  simp only [Tuning.CalcPitchNumber, h, Course.GetOct, Course.GetPname, midiBase_eq_spec_base,
    alter_eq_spec_offset, pitch_sum_wrap]

/-- The second and third tier: the value returned when no usable course tuning
is found. -/
theorem CalcPitchNumber_preset (t : Target) (self : Tuning) (course fret : Int)
    (nt : data_NOTATIONTYPE) (h : explicitTuning t (self.FindCourse course) = none) :
    Tuning.CalcPitchNumber t self course fret nt
      = if 0 < course ∧ course ≤ (self.selectPitch t nt).2 then
          (readArray (self.selectPitch t nt).1 (subInt course 1)).map (fun p => addInt p fret)
        else some 0 := by
  simp only [Tuning.CalcPitchNumber, h]

/-- Every table has six entries, so the bound `pitchSize` is six times the
size of an `int`, whatever is selected. -/
theorem selectPitch_snd (t : Target) (self : Tuning) (nt : data_NOTATIONTYPE) :
    (self.selectPitch t nt).2 = 6 * (t.sizeofInt : Int) := by
  unfold Tuning.selectPitch
  split
  · rfl
  · rfl
  · split <;> rfl

theorem selectPitch_fst_length (t : Target) (self : Tuning) (nt : data_NOTATIONTYPE) :
    (self.selectPitch t nt).1.length = 6 := by
  unfold Tuning.selectPitch
  split
  · rfl
  · rfl
  · split <;> rfl

/-- The table selected is one of the three presets. -/
theorem selectPitch_fst_cases (t : Target) (self : Tuning) (nt : data_NOTATIONTYPE) :
    (self.selectPitch t nt).1 = guitarPitch ∨ (self.selectPitch t nt).1 = guitarDropDPitch
      ∨ (self.selectPitch t nt).1 = lutePitch := by
  unfold Tuning.selectPitch
  split
  · exact Or.inr (Or.inl rfl)
  · exact Or.inr (Or.inr rfl)
  · split
    · exact Or.inr (Or.inr rfl)
    · exact Or.inl rfl

/-- The index `course - 1` does not wrap for a positive course number. -/
theorem subInt_course_one (course : Int) (h1 : 1 ≤ course) (h2 : course ≤ 2147483647) :
    subInt course 1 = course - 1 := by
  unfold subInt wrapInt
  omega

/-- A course between 1 and 6 is read from the selected table. -/
theorem CalcPitchNumber_preset_in_range (t : Target) (self : Tuning) (course fret : Int)
    (nt : data_NOTATIONTYPE) (h : explicitTuning t (self.FindCourse course) = none)
    (h1 : 1 ≤ course) (h6 : course ≤ 6) :
    Tuning.CalcPitchNumber t self course fret nt
      = some (wrapInt ((self.selectPitch t nt).1.getD (course - 1).toNat 0 + fret)) := by
  have hpos : (1 : Int) ≤ (t.sizeofInt : Int) := by exact_mod_cast t.sizeofInt_pos
  have hcond : 0 < course ∧ course ≤ (self.selectPitch t nt).2 := by
    rw [selectPitch_snd]
    constructor <;> omega
  rw [CalcPitchNumber_preset t self course fret nt h, if_pos hcond,
    subInt_course_one course h1 (by omega)]
  have hlen := selectPitch_fst_length t self nt
  have hidx : (course - 1).toNat < (self.selectPitch t nt).1.length := by omega
  have h0 : 0 ≤ course - 1 := by omega
  rw [readArray, if_pos h0]
  generalize (course - 1).toNat = k at hidx ⊢
  simp [List.getD, List.getElem?_eq_getElem hidx, addInt]

/-- A course above the table but not above `pitchSize` is read outside the
table. -/
theorem CalcPitchNumber_preset_outside (t : Target) (self : Tuning) (course fret : Int)
    (nt : data_NOTATIONTYPE) (h : explicitTuning t (self.FindCourse course) = none)
    (h7 : 7 ≤ course) (hs : course ≤ 6 * (t.sizeofInt : Int)) (hmax : course ≤ 2147483647) :
    Tuning.CalcPitchNumber t self course fret nt = none := by
  have hcond : 0 < course ∧ course ≤ (self.selectPitch t nt).2 := by
    rw [selectPitch_snd]
    constructor <;> omega
  rw [CalcPitchNumber_preset t self course fret nt h, if_pos hcond,
    subInt_course_one course (by omega) hmax]
  have hlen := selectPitch_fst_length t self nt
  have hidx : (self.selectPitch t nt).1.length ≤ (course - 1).toNat := by omega
  have h0 : 0 ≤ course - 1 := by omega
  rw [readArray, if_pos h0, List.getElem?_eq_none hidx]
  rfl

/-- A course that is not positive, or above `pitchSize`, gives the sentinel 0. -/
theorem CalcPitchNumber_preset_sentinel (t : Target) (self : Tuning) (course fret : Int)
    (nt : data_NOTATIONTYPE) (h : explicitTuning t (self.FindCourse course) = none)
    (hc : course ≤ 0 ∨ 6 * (t.sizeofInt : Int) < course) :
    Tuning.CalcPitchNumber t self course fret nt = some 0 := by
  have hcond : ¬ (0 < course ∧ course ≤ (self.selectPitch t nt).2) := by
    rw [selectPitch_snd]
    omega
  rw [CalcPitchNumber_preset t self course fret nt h, if_neg hcond]

/-- On a target whose `int` is one byte wide the byte size of a table is its
entry count, and course 7 gives the sentinel. -/
theorem CalcPitchNumber_course7_one_byte_int :
    Tuning.CalcPitchNumber target1 (Tuning.bare COURSETUNING_NONE) 7 0 NOTATIONTYPE_tab_guitar
      = some 0 := by
  decide

/-- No usable course tuning, spelled out: the search finds nothing, or it
finds a course that lacks a pitch name or an octave. -/
theorem explicitTuning_eq_none_iff (t : Target) (ct : Option Course) :
    explicitTuning t ct = none
      ↔ ct = none ∨ ∃ c, ct = some c ∧ (c.HasPname = false ∨ c.HasOct t = false) := by
  cases ct with
  | none => simp [explicitTuning]
  | some c =>
    constructor
    · intro h
      right
      refine ⟨c, rfl, ?_⟩
      by_contra hc
      simp only [not_or, Bool.not_eq_false] at hc
      rw [explicitTuning_some t c hc.1 hc.2] at h
      exact Option.noConfusion h
    · rintro (h | ⟨c2, hc2, h⟩)
      · exact Option.noConfusion h
      · cases hc2
        exact explicitTuning_partial t c h

/-- The selection of the preset reads nothing of the tuning element but its
tuning standard. -/
theorem selectPitch_congr (t : Target) (self other : Tuning) (nt : data_NOTATIONTYPE)
    (h : other.GetTuningStandard = self.GetTuningStandard) :
    other.selectPitch t nt = self.selectPitch t nt := by
  unfold Tuning.selectPitch
  rw [h]

/-- Without a usable course tuning the result depends on the tuning element
through its tuning standard only. -/
theorem CalcPitchNumber_preset_congr (t : Target) (self other : Tuning) (course fret : Int)
    (nt : data_NOTATIONTYPE)
    (hself : explicitTuning t (self.FindCourse course) = none)
    (hother : explicitTuning t (other.FindCourse course) = none)
    (h : other.GetTuningStandard = self.GetTuningStandard) :
    Tuning.CalcPitchNumber t self course fret nt = Tuning.CalcPitchNumber t other course fret nt := by
  rw [CalcPitchNumber_preset t self course fret nt hself,
    CalcPitchNumber_preset t other course fret nt hother, selectPitch_congr t self other nt h]

/-- The result depends on the tuning element through its tuning standard and
the result of the search for the requested course only. -/
theorem CalcPitchNumber_congr (t : Target) (self other : Tuning) (course fret : Int)
    (nt : data_NOTATIONTYPE) (hts : other.GetTuningStandard = self.GetTuningStandard)
    (hfind : other.FindCourse course = self.FindCourse course) :
    Tuning.CalcPitchNumber t other course fret nt = Tuning.CalcPitchNumber t self course fret nt := by
  simp only [Tuning.CalcPitchNumber, hfind, selectPitch_congr t self other nt hts]

/-- The table selected under the `default` label of the switch. -/
theorem selectPitch_default (t : Target) (self : Tuning) (nt : data_NOTATIONTYPE)
    (h1 : self.GetTuningStandard ≠ COURSETUNING_guitar_drop_D)
    (h2 : self.GetTuningStandard ≠ COURSETUNING_lute_renaissance_6) :
    (self.selectPitch t nt).1 = if isLuteTab nt = true then lutePitch else guitarPitch := by
  unfold Tuning.selectPitch isLuteTab
  split
  · next h => exact absurd h h1
  · next h => exact absurd h h2
  · by_cases hn : nt = NOTATIONTYPE_tab_lute_french ∨ nt = NOTATIONTYPE_tab_lute_italian
        ∨ nt = NOTATIONTYPE_tab_lute_german
    · simp [hn]
    · simp [hn]

/-- Without a usable course tuning the function is the return statement of
line 155 on the selected table and bound. -/
theorem CalcPitchNumber_eq_presetResult (t : Target) (self : Tuning) (course fret : Int)
    (nt : data_NOTATIONTYPE) (h : explicitTuning t (self.FindCourse course) = none) :
    Tuning.CalcPitchNumber t self course fret nt
      = presetResult (self.selectPitch t nt).1 (self.selectPitch t nt).2 course fret := by
  rw [CalcPitchNumber_preset t self course fret nt h]
  rfl

/-- Each preset is strictly decreasing from one course to any later one. -/
theorem preset_strictly_decreasing (T : List Int)
    (hT : T = guitarPitch ∨ T = guitarDropDPitch ∨ T = lutePitch)
    (i j : Int) (h1 : 1 ≤ i) (hij : i < j) (h6 : j ≤ 6) :
    T.getD (j - 1).toNat 0 < T.getD (i - 1).toNat 0 := by
  have hi : i ≤ 5 := by omega
  have hj : 2 ≤ j := by omega
  rcases hT with rfl | rfl | rfl <;> interval_cases i <;> interval_cases j <;>
    first
      | omega
      | decide

/-- The open pitches of the presets lie between 38 and 67. -/
theorem preset_entry_bounds (T : List Int)
    (hT : T = guitarPitch ∨ T = guitarDropDPitch ∨ T = lutePitch)
    (i : Int) (h1 : 1 ≤ i) (h6 : i ≤ 6) :
    38 ≤ T.getD (i - 1).toNat 0 ∧ T.getD (i - 1).toNat 0 ≤ 67 := by
  rcases hT with rfl | rfl | rfl <;> interval_cases i <;> decide

/-- The C function `abs` gives the absolute value of every `int` but
`INT_MIN`. -/
theorem abs_eq_abs (x : Int) (h1 : -2147483648 < x) (h2 : x ≤ 2147483647) : abs x = |x| := by
  unfold abs subInt wrapInt
  split
  · next h =>
    rw [abs_of_neg h]
    omega
  · next h => rw [abs_of_nonneg (not_lt.mp h)]

/-- The least `int` is its own `abs`, and in guitar tablature the course
`INT_MIN` on 0 lines is at position 0. -/
theorem abs_INT_MIN :
    abs INT_MIN = INT_MIN
    ∧ Tuning.CalcPitchPos INT_MIN NOTATIONTYPE_tab_guitar 0 = 0 := by
  decide

/-- The C function `abs` gives the same for an `int` and for its wrapped
negation. -/
theorem abs_subInt_symm (a b : Int) : abs (subInt a b) = abs (subInt b a) := by
  unfold abs subInt wrapInt
  split <;> split <;> omega

/-- The position outside French and Italian lute tablature. -/
theorem CalcPitchPos_default (course lines : Int) (nt : data_NOTATIONTYPE)
    (h1 : nt ≠ NOTATIONTYPE_tab_lute_french) (h2 : nt ≠ NOTATIONTYPE_tab_lute_italian) :
    Tuning.CalcPitchPos course nt lines = mulInt (abs (subInt course lines)) 2 := by
  cases nt with
  | NOTATIONTYPE_tab_lute_french => exact absurd rfl h1
  | NOTATIONTYPE_tab_lute_italian => exact absurd rfl h2
  | NOTATIONTYPE_tab_guitar => rfl
  | NOTATIONTYPE_tab_lute_german => rfl
  | other k => rfl

/-- The words of the specification outside French and Italian lute
tablature. -/
theorem spec_CalcPitchPos_default (course lines : Int) (nt : data_NOTATIONTYPE)
    (h1 : nt ≠ NOTATIONTYPE_tab_lute_french) (h2 : nt ≠ NOTATIONTYPE_tab_lute_italian) :
    spec_CalcPitchPos course nt lines = |course - lines| * 2 := by
  cases nt with
  | NOTATIONTYPE_tab_lute_french => exact absurd rfl h1
  | NOTATIONTYPE_tab_lute_italian => exact absurd rfl h2
  | NOTATIONTYPE_tab_guitar => rfl
  | NOTATIONTYPE_tab_lute_german => rfl
  | other k => rfl

/-- Where the position of the specification is representable as an `int`, the
code computes it. -/
theorem CalcPitchPos_eq_spec (course lines : Int) (nt : data_NOTATIONTYPE)
    (h : fitsInt (spec_CalcPitchPos course nt lines)) :
    Tuning.CalcPitchPos course nt lines = spec_CalcPitchPos course nt lines := by
  by_cases hf : nt = NOTATIONTYPE_tab_lute_french
  · subst hf
    simp only [spec_CalcPitchPos, fitsInt, INT_MIN, INT_MAX] at h
    simp only [Tuning.CalcPitchPos, spec_CalcPitchPos, addInt, mulInt, subInt, wrapInt]
    omega
  · by_cases hi : nt = NOTATIONTYPE_tab_lute_italian
    · subst hi
      simp only [spec_CalcPitchPos, fitsInt, INT_MIN, INT_MAX] at h
      simp only [Tuning.CalcPitchPos, spec_CalcPitchPos, mulInt, subInt, wrapInt]
      omega
    · rw [spec_CalcPitchPos_default course lines nt hf hi] at h ⊢
      rw [CalcPitchPos_default course lines nt hf hi]
      simp only [fitsInt, INT_MIN, INT_MAX] at h
      have hd : subInt course lines = course - lines := by
        unfold subInt wrapInt
        rcases abs_cases (course - lines) with ⟨e, _⟩ | ⟨e, _⟩ <;> rw [e] at h <;> omega
      rw [hd, abs_eq_abs (course - lines)
        (by rcases abs_cases (course - lines) with ⟨e, _⟩ | ⟨e, _⟩ <;> rw [e] at h <;> omega)
        (by rcases abs_cases (course - lines) with ⟨e, _⟩ | ⟨e, _⟩ <;> rw [e] at h <;> omega)]
      unfold mulInt wrapInt
      omega

/-- Children whose `@n` differs from the requested text are passed over. -/
theorem FindDescendantByComparison_skip (pre rest : List CourseElement) (course : Int)
    (hpre : ∀ x ∈ pre, x.n ≠ to_string course) :
    FindDescendantByComparison (pre ++ rest) course = FindDescendantByComparison rest course := by
  induction pre with
  | nil => rfl
  | cons x xs ih =>
    have hx : x.n ≠ to_string course := hpre x (List.mem_cons_self x xs)
    have hxs : ∀ y ∈ xs, y.n ≠ to_string course :=
      fun y hy => hpre y (List.mem_cons_of_mem x hy)
    have step : FindDescendantByComparison (x :: (xs ++ rest)) course
        = FindDescendantByComparison (xs ++ rest) course := by
      simp [FindDescendantByComparison, List.find?, hx]
    rw [List.cons_append, step, ih hxs]

/-- A child whose `@n` is the requested text ends the search. -/
theorem FindDescendantByComparison_hit (e : CourseElement) (rest : List CourseElement)
    (course : Int) (he : e.n = to_string course) :
    FindDescendantByComparison (e :: rest) course = some e.course := by
  simp [FindDescendantByComparison, List.find?, he]

/-- One child with a different `@n`, anywhere, does not change the search. -/
theorem FindDescendantByComparison_insert (pre post : List CourseElement) (x : CourseElement)
    (course : Int) (hx : x.n ≠ to_string course) :
    FindDescendantByComparison (pre ++ x :: post) course
      = FindDescendantByComparison (pre ++ post) course := by
  induction pre with
  | nil => simp [FindDescendantByComparison, List.find?, hx]
  | cons y ys ih =>
    by_cases hy : y.n = to_string course
    · rw [List.cons_append, List.cons_append, FindDescendantByComparison_hit y _ course hy,
        FindDescendantByComparison_hit y _ course hy]
    · have h1 := FindDescendantByComparison_skip [y] (ys ++ x :: post) course
        (by intro z hz; rw [List.mem_singleton] at hz; rw [hz]; exact hy)
      have h2 := FindDescendantByComparison_skip [y] (ys ++ post) course
        (by intro z hz; rw [List.mem_singleton] at hz; rw [hz]; exact hy)
      simp only [List.singleton_append] at h1 h2
      rw [List.cons_append, List.cons_append, h1, h2, ih]

/-- What follows a child whose `@n` is the requested text does not matter. -/
theorem FindDescendantByComparison_later (pre post post2 : List CourseElement)
    (e : CourseElement) (course : Int) (he : e.n = to_string course) :
    FindDescendantByComparison (pre ++ e :: post) course
      = FindDescendantByComparison (pre ++ e :: post2) course := by
  induction pre with
  | nil =>
    rw [List.nil_append, List.nil_append, FindDescendantByComparison_hit e post course he,
      FindDescendantByComparison_hit e post2 course he]
  | cons y ys ih =>
    by_cases hy : y.n = to_string course
    · rw [List.cons_append, List.cons_append, FindDescendantByComparison_hit y _ course hy,
        FindDescendantByComparison_hit y _ course hy]
    · have h1 := FindDescendantByComparison_skip [y] (ys ++ e :: post) course
        (by intro z hz; rw [List.mem_singleton] at hz; rw [hz]; exact hy)
      have h2 := FindDescendantByComparison_skip [y] (ys ++ e :: post2) course
        (by intro z hz; rw [List.mem_singleton] at hz; rw [hz]; exact hy)
      simp only [List.singleton_append] at h1 h2
      rw [List.cons_append, List.cons_append, h1, h2, ih]

/-! ## The claims -/

/-- C1 (defect of the code). With a 4-byte `int`, no course child, no tuning
standard and guitar tablature, the bound the course number is compared with is
24, the size in bytes of the table, and not 6, its entry count. For course 7
and fret 0 the function therefore reads entry 6 of a table of six entries,
which is outside the table, instead of returning the sentinel 0. -/
theorem C1_course7_reads_outside_table :
    guitarPitch.length = 6
    ∧ Tuning.selectPitch target32 (Tuning.bare COURSETUNING_NONE) NOTATIONTYPE_tab_guitar
        = (guitarPitch, 24)
    ∧ readArray guitarPitch (7 - 1) = none
    ∧ Tuning.CalcPitchNumber target32 (Tuning.bare COURSETUNING_NONE) 7 0 NOTATIONTYPE_tab_guitar
        = none
    ∧ Tuning.CalcPitchNumber target32 (Tuning.bare COURSETUNING_NONE) 7 0 NOTATIONTYPE_tab_guitar
        ≠ some 0 := by
  decide

/-- C2, refuted as stated. Course 1 is tuned to c in octave 4 without
accidental; with the fret 2147483647, the greatest `int`, the function returns
-2147483589 and not (4 + 1) * 12 + 0 + 0 + 2147483647 = 2147483707, which no
`int` can hold. So the formula does not give the result for every fret. -/
theorem C2_every_fret_counterexample :
    Course.HasPname ⟨PITCHNAME_c, 4, ACCIDENTAL_WRITTEN_NONE⟩ = true
    ∧ Course.HasOct target32 ⟨PITCHNAME_c, 4, ACCIDENTAL_WRITTEN_NONE⟩ = true
    ∧ fitsInt 2147483647
    ∧ Tuning.CalcPitchNumber target32
        (Tuning.withCourse COURSETUNING_NONE 1 ⟨PITCHNAME_c, 4, ACCIDENTAL_WRITTEN_NONE⟩)
        1 2147483647 NOTATIONTYPE_tab_guitar = some (-2147483589)
    ∧ Tuning.CalcPitchNumber target32
        (Tuning.withCourse COURSETUNING_NONE 1 ⟨PITCHNAME_c, 4, ACCIDENTAL_WRITTEN_NONE⟩)
        1 2147483647 NOTATIONTYPE_tab_guitar ≠ some ((4 + 1) * 12 + 0 + 0 + 2147483647) := by
  decide

/-- C2, amended. When the search finds a course that has a pitch name and an
octave, `CalcPitchNumber` returns (octave + 1) * 12 + base + alter + fret, with
base c:0 d:2 e:4 f:5 g:7 a:9 b:11 and alter +1 for sharp, -1 for flat, 0
without accidental, for every notation type and tuning standard and for every
fret for which that sum is representable as an `int`; for any fret it returns
the sum reduced modulo 2^32 into the range of `int`. The result is the same
for any other notation type and tuning standard; pitch name c in octave 4 with
fret 0 gives 60, and g sharp in octave 3 with fret 1 gives 57. -/
theorem C2_explicit_course_pitch (t : Target) :
    (∀ (self : Tuning) (course fret : Int) (nt : data_NOTATIONTYPE) (c : Course),
        self.FindCourse course = some c → c.HasPname = true → c.HasOct t = true →
        Tuning.CalcPitchNumber t self course fret nt
            = some (wrapInt
                ((c.m_oct + 1) * 12 + spec_base c.m_pname + spec_offset c.m_accid + fret))
        ∧ (fitsInt ((c.m_oct + 1) * 12 + spec_base c.m_pname + spec_offset c.m_accid + fret) →
            Tuning.CalcPitchNumber t self course fret nt
              = some ((c.m_oct + 1) * 12 + spec_base c.m_pname + spec_offset c.m_accid + fret)))
    ∧ (∀ (self other : Tuning) (course fret : Int) (nt nt2 : data_NOTATIONTYPE) (c : Course),
        self.FindCourse course = some c → other.FindCourse course = some c →
        c.HasPname = true → c.HasOct t = true →
        Tuning.CalcPitchNumber t other course fret nt2
          = Tuning.CalcPitchNumber t self course fret nt)
    ∧ (∀ (self : Tuning) (course : Int) (nt : data_NOTATIONTYPE),
        self.FindCourse course = some ⟨PITCHNAME_c, 4, ACCIDENTAL_WRITTEN_NONE⟩ →
        t.MEI_UNSET_OCT ≠ 4 →
        Tuning.CalcPitchNumber t self course 0 nt = some 60)
    ∧ (∀ (self : Tuning) (course : Int) (nt : data_NOTATIONTYPE),
        self.FindCourse course = some ⟨PITCHNAME_g, 3, ACCIDENTAL_WRITTEN_s⟩ →
        t.MEI_UNSET_OCT ≠ 3 →
        Tuning.CalcPitchNumber t self course 1 nt = some 57) := by
  refine ⟨?_, ?_, ?_, ?_⟩
  · intro self course fret nt c hf hp ho
    have e : explicitTuning t (self.FindCourse course) = some c := by
      rw [hf]
      exact explicitTuning_some t c hp ho
    refine ⟨CalcPitchNumber_explicit t self course fret nt c e, fun hfit => ?_⟩
    rw [CalcPitchNumber_explicit t self course fret nt c e, wrapInt_of_fitsInt _ hfit]
  · intro self other course fret nt nt2 c hf hf2 hp ho
    have e := explicitTuning_some t c hp ho
    rw [CalcPitchNumber_explicit t self course fret nt c (by rw [hf]; exact e),
      CalcPitchNumber_explicit t other course fret nt2 c (by rw [hf2]; exact e)]
  · intro self course nt hf ho
    have e : explicitTuning t (self.FindCourse course)
        = some ⟨PITCHNAME_c, 4, ACCIDENTAL_WRITTEN_NONE⟩ := by
      rw [hf]
      apply explicitTuning_some
      · rfl
      · simpa [Course.HasOct] using fun h => ho h.symm
    rw [CalcPitchNumber_explicit t self course 0 nt _ e]
    rfl
  · intro self course nt hf ho
    have e : explicitTuning t (self.FindCourse course)
        = some ⟨PITCHNAME_g, 3, ACCIDENTAL_WRITTEN_s⟩ := by
      rw [hf]
      apply explicitTuning_some
      · rfl
      · simpa [Course.HasOct] using fun h => ho h.symm
    rw [CalcPitchNumber_explicit t self course 1 nt _ e]
    rfl

/-- Witness of C2 as amended: course 2 tuned to g sharp in octave 3, fret 1,
with the tuning standard set to the renaissance lute and French lute
tablature; the sum 57 is representable. -/
theorem C2_explicit_course_pitch_witness :
    Tuning.CalcPitchNumber target32
      (Tuning.withCourse COURSETUNING_lute_renaissance_6 2 ⟨PITCHNAME_g, 3, ACCIDENTAL_WRITTEN_s⟩)
      2 1 NOTATIONTYPE_tab_lute_french
        = some ((3 + 1) * 12 + spec_base PITCHNAME_g + spec_offset ACCIDENTAL_WRITTEN_s + 1) :=
  ((C2_explicit_course_pitch target32).1
    (Tuning.withCourse COURSETUNING_lute_renaissance_6 2 ⟨PITCHNAME_g, 3, ACCIDENTAL_WRITTEN_s⟩)
    2 1 NOTATIONTYPE_tab_lute_french ⟨PITCHNAME_g, 3, ACCIDENTAL_WRITTEN_s⟩
    rfl (by decide) (by decide)).2 (by decide)

/-- C3, refuted as stated. With no course child, the tuning standard unset and
guitar tablature, course 1 with the fret 2147483647 gives -2147483585 and not
64 + 2147483647. So the table entry plus the fret is not the result for every
fret. -/
theorem C3_every_fret_counterexample :
    fitsInt 2147483647
    ∧ Tuning.CalcPitchNumber target32 (Tuning.bare COURSETUNING_NONE) 1 2147483647
        NOTATIONTYPE_tab_guitar = some (-2147483585)
    ∧ Tuning.CalcPitchNumber target32 (Tuning.bare COURSETUNING_NONE) 1 2147483647
        NOTATIONTYPE_tab_guitar
        ≠ some (64 + 2147483647) := by
  decide

/-- C3, amended. With no course tuning found, the tuning standard unset and
guitar tablature, a course between 1 and 6 gives the entry course - 1 of
64, 59, 55, 50, 45, 40 plus the fret, for every fret for which that sum is
representable as an `int`; for any fret it gives the sum reduced modulo 2^32
into the range of `int`. -/
theorem C3_guitar_default (t : Target) (self : Tuning) (course fret : Int)
    (hts : self.GetTuningStandard = COURSETUNING_NONE)
    (hfind : self.FindCourse course = none) (h1 : 1 ≤ course) (h6 : course ≤ 6) :
    Tuning.CalcPitchNumber t self course fret NOTATIONTYPE_tab_guitar
        = some (wrapInt (([64, 59, 55, 50, 45, 40] : List Int).getD (course - 1).toNat 0 + fret))
    ∧ (fitsInt (([64, 59, 55, 50, 45, 40] : List Int).getD (course - 1).toNat 0 + fret) →
        Tuning.CalcPitchNumber t self course fret NOTATIONTYPE_tab_guitar
          = some (([64, 59, 55, 50, 45, 40] : List Int).getD (course - 1).toNat 0 + fret)) := by
  have he : explicitTuning t (self.FindCourse course) = none := by rw [hfind]; rfl
  have hsel : (self.selectPitch t NOTATIONTYPE_tab_guitar).1 = [64, 59, 55, 50, 45, 40] := by
    simp [Tuning.selectPitch, hts, guitarPitch]
  have hval := CalcPitchNumber_preset_in_range t self course fret NOTATIONTYPE_tab_guitar he h1 h6
  rw [hsel] at hval
  refine ⟨hval, fun hfit => ?_⟩
  rw [hval, wrapInt_of_fitsInt _ hfit]

/-- Witness of C3 as amended: course 3, fret 2 on a guitar gives 55 + 2. -/
theorem C3_guitar_default_witness :
    Tuning.CalcPitchNumber target32 (Tuning.bare COURSETUNING_NONE) 3 2 NOTATIONTYPE_tab_guitar
      = some (55 + 2) :=
  (C3_guitar_default target32 (Tuning.bare COURSETUNING_NONE) 3 2 rfl rfl (by decide)
    (by decide)).2 (by decide)

/-- C4, refuted as stated. With no course child and the tuning standard
guitar drop D, course 1 with the fret 2147483647 gives -2147483585 and not
64 + 2147483647; under the renaissance lute standard it gives -2147483582 and
not 67 + 2147483647. So the table entry plus the fret is not the result for
every fret. -/
theorem C4_every_fret_counterexample :
    fitsInt 2147483647
    ∧ Tuning.CalcPitchNumber target32 (Tuning.bare COURSETUNING_guitar_drop_D) 1 2147483647
        NOTATIONTYPE_tab_guitar = some (-2147483585)
    ∧ Tuning.CalcPitchNumber target32 (Tuning.bare COURSETUNING_guitar_drop_D) 1 2147483647
        NOTATIONTYPE_tab_guitar
        ≠ some (64 + 2147483647)
    ∧ Tuning.CalcPitchNumber target32 (Tuning.bare COURSETUNING_lute_renaissance_6) 1 2147483647
        NOTATIONTYPE_tab_guitar = some (-2147483582)
    ∧ Tuning.CalcPitchNumber target32 (Tuning.bare COURSETUNING_lute_renaissance_6) 1 2147483647
        NOTATIONTYPE_tab_guitar
        ≠ some (67 + 2147483647) := by
  decide

/-- C4, amended. With no usable course tuning, a course between 1 and 6 gives,
for the tuning standard guitar drop D, the entry course - 1 of
64, 59, 55, 50, 45, 38 plus the fret, and for the six course renaissance lute
the entry course - 1 of 67, 62, 57, 53, 48, 43 plus the fret, for every
notation type and for every fret for which that sum is representable as an
`int`; for any fret it gives the sum reduced modulo 2^32 into the range of
`int`. Under either standard the notation type has no influence on the
result. -/
theorem C4_named_standard (t : Target) (self : Tuning) (course fret : Int)
    (nt : data_NOTATIONTYPE)
    (hno : explicitTuning t (self.FindCourse course) = none) (h1 : 1 ≤ course) (h6 : course ≤ 6) :
    (self.GetTuningStandard = COURSETUNING_guitar_drop_D →
      Tuning.CalcPitchNumber t self course fret nt
          = some (wrapInt (([64, 59, 55, 50, 45, 38] : List Int).getD (course - 1).toNat 0 + fret))
      ∧ (fitsInt (([64, 59, 55, 50, 45, 38] : List Int).getD (course - 1).toNat 0 + fret) →
          Tuning.CalcPitchNumber t self course fret nt
            = some (([64, 59, 55, 50, 45, 38] : List Int).getD (course - 1).toNat 0 + fret)))
    ∧ (self.GetTuningStandard = COURSETUNING_lute_renaissance_6 →
      Tuning.CalcPitchNumber t self course fret nt
          = some (wrapInt (([67, 62, 57, 53, 48, 43] : List Int).getD (course - 1).toNat 0 + fret))
      ∧ (fitsInt (([67, 62, 57, 53, 48, 43] : List Int).getD (course - 1).toNat 0 + fret) →
          Tuning.CalcPitchNumber t self course fret nt
            = some (([67, 62, 57, 53, 48, 43] : List Int).getD (course - 1).toNat 0 + fret)))
    ∧ (self.GetTuningStandard = COURSETUNING_guitar_drop_D
        ∨ self.GetTuningStandard = COURSETUNING_lute_renaissance_6 →
      ∀ nt2 : data_NOTATIONTYPE,
        Tuning.CalcPitchNumber t self course fret nt2
          = Tuning.CalcPitchNumber t self course fret nt) := by
  refine ⟨?_, ?_, ?_⟩
  · intro hts
    have hsel : (self.selectPitch t nt).1 = [64, 59, 55, 50, 45, 38] := by
      simp [Tuning.selectPitch, hts, guitarDropDPitch]
    have hval := CalcPitchNumber_preset_in_range t self course fret nt hno h1 h6
    rw [hsel] at hval
    refine ⟨hval, fun hfit => ?_⟩
    rw [hval, wrapInt_of_fitsInt _ hfit]
  · intro hts
    have hsel : (self.selectPitch t nt).1 = [67, 62, 57, 53, 48, 43] := by
      simp [Tuning.selectPitch, hts, lutePitch]
    have hval := CalcPitchNumber_preset_in_range t self course fret nt hno h1 h6
    rw [hsel] at hval
    refine ⟨hval, fun hfit => ?_⟩
    rw [hval, wrapInt_of_fitsInt _ hfit]
  · intro hts nt2
    rw [CalcPitchNumber_preset_in_range t self course fret nt hno h1 h6,
      CalcPitchNumber_preset_in_range t self course fret nt2 hno h1 h6]
    rcases hts with hts | hts <;> simp [Tuning.selectPitch, hts]

/-- Witness of C4 as amended: course 6 under guitar drop D, fret 0, in French
lute tablature, where the search finds a course without an octave. -/
theorem C4_named_standard_witness :
    Tuning.CalcPitchNumber target32
      (Tuning.withCourse COURSETUNING_guitar_drop_D 6 ⟨PITCHNAME_d, -127, ACCIDENTAL_WRITTEN_NONE⟩)
      6 0 NOTATIONTYPE_tab_lute_french
        = some (38 + 0) :=
  ((C4_named_standard target32
    (Tuning.withCourse COURSETUNING_guitar_drop_D 6 ⟨PITCHNAME_d, -127, ACCIDENTAL_WRITTEN_NONE⟩)
    6 0 NOTATIONTYPE_tab_lute_french (by decide) (by decide) (by decide)).1 rfl).2 (by decide)

/-- C5. With a tuning standard other than guitar drop D and renaissance lute
(unset included), the table selected is 67, 62, 57, 53, 48, 43 exactly when
the notation type is French, Italian or German lute tablature, and
64, 59, 55, 50, 45, 40 for every other notation type; a course between 1 and 6
without usable course tuning is read from that table and the fret is added to
it (the sum itself where it is representable as an `int`, and in any case the
sum reduced modulo 2^32); and every such tuning standard gives the result of
the unset one on all inputs. -/
theorem C5_notation_type_heuristic (t : Target) :
    (∀ (self : Tuning) (nt : data_NOTATIONTYPE),
        self.GetTuningStandard ≠ COURSETUNING_guitar_drop_D →
        self.GetTuningStandard ≠ COURSETUNING_lute_renaissance_6 →
        ((self.selectPitch t nt).1 = [67, 62, 57, 53, 48, 43]
          ↔ (nt = NOTATIONTYPE_tab_lute_french ∨ nt = NOTATIONTYPE_tab_lute_italian
              ∨ nt = NOTATIONTYPE_tab_lute_german))
        ∧ (¬ (nt = NOTATIONTYPE_tab_lute_french ∨ nt = NOTATIONTYPE_tab_lute_italian
              ∨ nt = NOTATIONTYPE_tab_lute_german) →
            (self.selectPitch t nt).1 = [64, 59, 55, 50, 45, 40]))
    ∧ (∀ (self : Tuning) (course fret : Int) (nt : data_NOTATIONTYPE),
        self.GetTuningStandard ≠ COURSETUNING_guitar_drop_D →
        self.GetTuningStandard ≠ COURSETUNING_lute_renaissance_6 →
        explicitTuning t (self.FindCourse course) = none → 1 ≤ course → course ≤ 6 →
        Tuning.CalcPitchNumber t self course fret nt
            = some (wrapInt ((if isLuteTab nt = true then ([67, 62, 57, 53, 48, 43] : List Int)
                      else [64, 59, 55, 50, 45, 40]).getD (course - 1).toNat 0 + fret))
        ∧ (fitsInt ((if isLuteTab nt = true then ([67, 62, 57, 53, 48, 43] : List Int)
                      else [64, 59, 55, 50, 45, 40]).getD (course - 1).toNat 0 + fret) →
            Tuning.CalcPitchNumber t self course fret nt
              = some ((if isLuteTab nt = true then ([67, 62, 57, 53, 48, 43] : List Int)
                      else [64, 59, 55, 50, 45, 40]).getD (course - 1).toNat 0 + fret)))
    ∧ (∀ (ts : data_COURSETUNING) (find : Int → Option Course) (course fret : Int)
        (nt : data_NOTATIONTYPE),
        ts ≠ COURSETUNING_guitar_drop_D → ts ≠ COURSETUNING_lute_renaissance_6 →
        Tuning.CalcPitchNumber t ⟨ts, find⟩ course fret nt
          = Tuning.CalcPitchNumber t ⟨COURSETUNING_NONE, find⟩ course fret nt) := by
  refine ⟨?_, ?_, ?_⟩
  · intro self nt h1 h2
    rw [selectPitch_default t self nt h1 h2]
    by_cases hn : nt = NOTATIONTYPE_tab_lute_french ∨ nt = NOTATIONTYPE_tab_lute_italian
        ∨ nt = NOTATIONTYPE_tab_lute_german
    · simp [isLuteTab, hn, lutePitch]
    · simp [isLuteTab, hn, guitarPitch]
  · intro self course fret nt h1 h2 hno hc1 hc6
    have hval := CalcPitchNumber_preset_in_range t self course fret nt hno hc1 hc6
    rw [selectPitch_default t self nt h1 h2] at hval
    have hval2 : Tuning.CalcPitchNumber t self course fret nt
        = some (wrapInt ((if isLuteTab nt = true then ([67, 62, 57, 53, 48, 43] : List Int)
                  else [64, 59, 55, 50, 45, 40]).getD (course - 1).toNat 0 + fret)) := hval
    refine ⟨hval2, fun hfit => ?_⟩
    rw [hval2, wrapInt_of_fitsInt _ hfit]
  · intro ts find course fret nt h1 h2
    have hsel : Tuning.selectPitch t ⟨ts, find⟩ nt = Tuning.selectPitch t ⟨COURSETUNING_NONE, find⟩ nt := by
      cases ts with
      | COURSETUNING_NONE => rfl
      | COURSETUNING_guitar_drop_D => exact absurd rfl h1
      | COURSETUNING_lute_renaissance_6 => exact absurd rfl h2
      | other k => rfl
    simp only [Tuning.CalcPitchNumber, hsel]

/-- Witness of C5: a tuning standard that is neither of the two named ones,
German lute tablature, course 1, fret 3. -/
theorem C5_notation_type_heuristic_witness :
    Tuning.CalcPitchNumber target32 (Tuning.bare (data_COURSETUNING.other 0)) 1 3
        NOTATIONTYPE_tab_lute_german = some (67 + 3) :=
  ((C5_notation_type_heuristic target32).2.1 (Tuning.bare (data_COURSETUNING.other 0)) 1 3
    NOTATIONTYPE_tab_lute_german (by decide) (by decide) rfl (by decide) (by decide)).2
    (by decide)

/-- C6. When the search finds a course that lacks a pitch name or lacks an
octave, `CalcPitchNumber` returns, for every course number, fret, notation
type and tuning standard, exactly what it returns for a tuning element with
the same tuning standard in which the search finds no course; the members of
the partial course have no effect. -/
theorem C6_partial_course_as_absent (t : Target) (self bare : Tuning) (course fret : Int)
    (nt : data_NOTATIONTYPE) (c : Course)
    (hfind : self.FindCourse course = some c)
    (hpart : c.HasPname = false ∨ c.HasOct t = false)
    (hnone : bare.FindCourse course = none)
    (hts : bare.GetTuningStandard = self.GetTuningStandard) :
    Tuning.CalcPitchNumber t self course fret nt = Tuning.CalcPitchNumber t bare course fret nt := by
  apply CalcPitchNumber_preset_congr t self bare course fret nt _ _ hts
  · rw [hfind]
    exact explicitTuning_partial t c hpart
  · rw [hnone]
    rfl

/-- Witness of C6: course 2 carries g sharp but no octave; the result is that
of the renaissance lute preset. -/
theorem C6_partial_course_as_absent_witness :
    Tuning.CalcPitchNumber target32
        (Tuning.withCourse COURSETUNING_lute_renaissance_6 2 ⟨PITCHNAME_g, -127, ACCIDENTAL_WRITTEN_s⟩)
        2 1 NOTATIONTYPE_tab_guitar
      = Tuning.CalcPitchNumber target32 (Tuning.bare COURSETUNING_lute_renaissance_6)
        2 1 NOTATIONTYPE_tab_guitar :=
  C6_partial_course_as_absent target32
    (Tuning.withCourse COURSETUNING_lute_renaissance_6 2 ⟨PITCHNAME_g, -127, ACCIDENTAL_WRITTEN_s⟩)
    (Tuning.bare COURSETUNING_lute_renaissance_6) 2 1 NOTATIONTYPE_tab_guitar
    ⟨PITCHNAME_g, -127, ACCIDENTAL_WRITTEN_s⟩ rfl (Or.inr (by decide)) rfl rfl

/-- C7, refuted as stated. Course 1 carries the pitch name none and the octave
4, which is set; with fret 0, guitar tablature and no tuning standard the
function returns 64, the open pitch of the guitar preset, and not
(4 + 1) * 12 + 0 + 0 + 0 = 60. So the statement fails for some course whose
pitch name is none and whose octave is set. -/
theorem C7_unset_pname_counterexample :
    Course.HasOct target32 ⟨PITCHNAME_NONE, 4, ACCIDENTAL_WRITTEN_NONE⟩ = true
    ∧ Tuning.CalcPitchNumber target32
        (Tuning.withCourse COURSETUNING_NONE 1 ⟨PITCHNAME_NONE, 4, ACCIDENTAL_WRITTEN_NONE⟩)
        1 0 NOTATIONTYPE_tab_guitar = some 64
    ∧ Tuning.CalcPitchNumber target32
        (Tuning.withCourse COURSETUNING_NONE 1 ⟨PITCHNAME_NONE, 4, ACCIDENTAL_WRITTEN_NONE⟩)
        1 0 NOTATIONTYPE_tab_guitar ≠ some ((4 + 1) * 12 + 0 + 0 + 0)
    ∧ ¬ (∀ (t : Target) (self : Tuning) (course fret : Int) (nt : data_NOTATIONTYPE) (c : Course),
          self.FindCourse course = some c → c.m_pname = PITCHNAME_NONE → c.HasOct t = true →
          Tuning.CalcPitchNumber t self course fret nt
            = some ((c.m_oct + 1) * 12 + 0 + spec_offset c.m_accid + fret)) := by
  refine ⟨by decide, by decide, by decide, ?_⟩
  intro h
  have h1 := h target32
    (Tuning.withCourse COURSETUNING_NONE 1 ⟨PITCHNAME_NONE, 4, ACCIDENTAL_WRITTEN_NONE⟩)
    1 0 NOTATIONTYPE_tab_guitar ⟨PITCHNAME_NONE, 4, ACCIDENTAL_WRITTEN_NONE⟩ rfl rfl (by decide)
  revert h1
  decide

/-- C7, amended. The switch over the pitch name gives the base 0 for none, but
a course whose pitch name is none does not have a pitch name, so the first
tier is not applied to it: whatever its octave and accidental,
`CalcPitchNumber` returns what it returns for a tuning element with the same
tuning standard in which the search finds no course. -/
theorem C7_unset_pname_as_absent (t : Target) (self bare : Tuning) (course fret : Int)
    (nt : data_NOTATIONTYPE) (c : Course)
    (hfind : self.FindCourse course = some c)
    (hpname : c.m_pname = PITCHNAME_NONE)
    (hnone : bare.FindCourse course = none)
    (hts : bare.GetTuningStandard = self.GetTuningStandard) :
    midiBase PITCHNAME_NONE = 0
    ∧ c.HasPname = false
    ∧ Tuning.CalcPitchNumber t self course fret nt
        = Tuning.CalcPitchNumber t bare course fret nt := by
  have hp : c.HasPname = false := by simp [Course.HasPname, hpname]
  refine ⟨rfl, hp, ?_⟩
  apply CalcPitchNumber_preset_congr t self bare course fret nt _ _ hts
  · rw [hfind]
    exact explicitTuning_partial t c (Or.inl hp)
  · rw [hnone]
    rfl

/-- Witness of C7 as amended: pitch name none, octave 4, flat, on course 1. -/
theorem C7_unset_pname_as_absent_witness :
    Tuning.CalcPitchNumber target32
        (Tuning.withCourse COURSETUNING_NONE 1 ⟨PITCHNAME_NONE, 4, ACCIDENTAL_WRITTEN_f⟩)
        1 0 NOTATIONTYPE_tab_guitar
      = Tuning.CalcPitchNumber target32 (Tuning.bare COURSETUNING_NONE) 1 0 NOTATIONTYPE_tab_guitar :=
  (C7_unset_pname_as_absent target32
    (Tuning.withCourse COURSETUNING_NONE 1 ⟨PITCHNAME_NONE, 4, ACCIDENTAL_WRITTEN_f⟩)
    (Tuning.bare COURSETUNING_NONE) 1 0 NOTATIONTYPE_tab_guitar
    ⟨PITCHNAME_NONE, 4, ACCIDENTAL_WRITTEN_f⟩ rfl rfl rfl rfl).2.2

/-- Reducing an intermediate sum does not change the reduced total. -/
theorem wrapInt_wrapInt_add (a b : Int) : wrapInt (wrapInt a + b) = wrapInt (a + b) := by
  unfold wrapInt
  omega

/-- C8, refuted as stated. In French lute tablature course 7 on 2147483647
lines, the greatest `int`, is at -15 and not at
(2147483647 - min(7, 7)) * 2 + 1 = 4294967281, which no `int` can hold. So the
formula does not give the position for every line count. -/
theorem C8_every_lines_counterexample :
    fitsInt 7 ∧ fitsInt 2147483647
    ∧ Tuning.CalcPitchPos 7 NOTATIONTYPE_tab_lute_french 2147483647 = -15
    ∧ Tuning.CalcPitchPos 7 NOTATIONTYPE_tab_lute_french 2147483647
        ≠ (2147483647 - min 7 7) * 2 + 1 := by
  decide

/-- C8, amended. In French lute tablature the position is
(lines - min(course, 7)) * 2 + 1 for every course and line count for which
that value is representable as an `int`, and in any case that value reduced
modulo 2^32 into the range of `int`; every course from 7 on gets the position
of course 7; course 3 on 5 lines is at 5 and course 9 on 5 lines at -3. -/
theorem C8_french_position :
    (∀ course lines : Int,
        Tuning.CalcPitchPos course NOTATIONTYPE_tab_lute_french lines
          = wrapInt ((lines - min course 7) * 2 + 1))
    ∧ (∀ course lines : Int, fitsInt ((lines - min course 7) * 2 + 1) →
        Tuning.CalcPitchPos course NOTATIONTYPE_tab_lute_french lines
          = (lines - min course 7) * 2 + 1)
    ∧ (∀ course lines : Int, 7 ≤ course →
        Tuning.CalcPitchPos course NOTATIONTYPE_tab_lute_french lines
          = Tuning.CalcPitchPos 7 NOTATIONTYPE_tab_lute_french lines)
    ∧ Tuning.CalcPitchPos 3 NOTATIONTYPE_tab_lute_french 5 = 5
    ∧ Tuning.CalcPitchPos 9 NOTATIONTYPE_tab_lute_french 5 = -3 := by
  have gen : ∀ course lines : Int,
      Tuning.CalcPitchPos course NOTATIONTYPE_tab_lute_french lines
        = wrapInt ((lines - min course 7) * 2 + 1) := by
    intro course lines
    simp only [Tuning.CalcPitchPos, addInt, mulInt, subInt, wrapInt]
    omega
  refine ⟨gen, ?_, ?_, by decide, by decide⟩
  · intro course lines hfit
    rw [gen, wrapInt_of_fitsInt _ hfit]
  · intro course lines h
    simp only [Tuning.CalcPitchPos]
    rw [min_eq_right h, min_eq_right (le_refl 7)]

/-- Witness of C8 as amended: course 12 on 6 lines, where the value -1 is
representable. -/
theorem C8_french_position_witness :
    Tuning.CalcPitchPos 12 NOTATIONTYPE_tab_lute_french 6 = (6 - min 12 7) * 2 + 1 :=
  C8_french_position.2.1 12 6 (by decide)

/-- C9, refuted as stated. In Italian lute tablature course 2147483647, the
greatest `int`, is at -4 and not at (2147483647 - 1) * 2; and although
1 < 2147483647, the position of course 1, which is 0, is not below the
position of course 2147483647. So neither the formula nor the strict increase
holds for every course. -/
theorem C9_every_course_counterexample :
    fitsInt 2147483647
    ∧ Tuning.CalcPitchPos 2147483647 NOTATIONTYPE_tab_lute_italian 5 = -4
    ∧ Tuning.CalcPitchPos 2147483647 NOTATIONTYPE_tab_lute_italian 5 ≠ (2147483647 - 1) * 2
    ∧ (1 : Int) < 2147483647
    ∧ ¬ (Tuning.CalcPitchPos 1 NOTATIONTYPE_tab_lute_italian 5
          < Tuning.CalcPitchPos 2147483647 NOTATIONTYPE_tab_lute_italian 5) := by
  decide

/-- C9, amended. In Italian lute tablature the position is (course - 1) * 2
for every line count and every course for which that value is representable
as an `int`, and in any case that value reduced modulo 2^32 into the range of
`int`: the result does not depend on the line count, it is strictly increasing
in the course over the courses whose value is representable, without any
clamping (course 8 differs from course 7), course 1 is at 0 and course 4
at 6. -/
theorem C9_italian_position :
    (∀ course lines : Int,
        Tuning.CalcPitchPos course NOTATIONTYPE_tab_lute_italian lines
          = wrapInt ((course - 1) * 2))
    ∧ (∀ course lines : Int, fitsInt ((course - 1) * 2) →
        Tuning.CalcPitchPos course NOTATIONTYPE_tab_lute_italian lines = (course - 1) * 2)
    ∧ (∀ course lines lines2 : Int,
        Tuning.CalcPitchPos course NOTATIONTYPE_tab_lute_italian lines
          = Tuning.CalcPitchPos course NOTATIONTYPE_tab_lute_italian lines2)
    ∧ (∀ course course2 lines : Int,
        fitsInt ((course - 1) * 2) → fitsInt ((course2 - 1) * 2) → course < course2 →
        Tuning.CalcPitchPos course NOTATIONTYPE_tab_lute_italian lines
          < Tuning.CalcPitchPos course2 NOTATIONTYPE_tab_lute_italian lines)
    ∧ (∀ lines : Int,
        Tuning.CalcPitchPos 8 NOTATIONTYPE_tab_lute_italian lines
          ≠ Tuning.CalcPitchPos 7 NOTATIONTYPE_tab_lute_italian lines)
    ∧ Tuning.CalcPitchPos 1 NOTATIONTYPE_tab_lute_italian 5 = 0
    ∧ Tuning.CalcPitchPos 4 NOTATIONTYPE_tab_lute_italian 5 = 6 := by
  have gen : ∀ course lines : Int,
      Tuning.CalcPitchPos course NOTATIONTYPE_tab_lute_italian lines
        = wrapInt ((course - 1) * 2) := by
    intro course lines
    simp only [Tuning.CalcPitchPos, mulInt, subInt, wrapInt]
    omega
  have hexact : ∀ course lines : Int, fitsInt ((course - 1) * 2) →
      Tuning.CalcPitchPos course NOTATIONTYPE_tab_lute_italian lines = (course - 1) * 2 := by
    intro course lines hfit
    rw [gen, wrapInt_of_fitsInt _ hfit]
  refine ⟨gen, hexact, fun _ _ _ => rfl, ?_, ?_, by decide, by decide⟩
  · intro course course2 lines h1 h2 h
    rw [hexact course lines h1, hexact course2 lines h2]
    omega
  · intro lines
    rw [gen, gen]
    decide

/-- Witness of C9 as amended: course 7 is drawn strictly before course 8 on 6
lines, both values being representable. -/
theorem C9_italian_position_witness :
    Tuning.CalcPitchPos 7 NOTATIONTYPE_tab_lute_italian 6
      < Tuning.CalcPitchPos 8 NOTATIONTYPE_tab_lute_italian 6 :=
  C9_italian_position.2.2.2.1 7 8 6 (by decide) (by decide) (by decide)

/-- C10, refuted as stated. In guitar tablature course 1073741825 on 0 lines
is at -2147483646 and not at abs(1073741825 - 0) * 2 = 2147483650, which no
`int` can hold. So the formula does not give the position for every course and
line count. -/
theorem C10_every_course_counterexample :
    fitsInt 1073741825 ∧ fitsInt 0
    ∧ Tuning.CalcPitchPos 1073741825 NOTATIONTYPE_tab_guitar 0 = -2147483646
    ∧ Tuning.CalcPitchPos 1073741825 NOTATIONTYPE_tab_guitar 0 ≠ 2147483650
    ∧ |(1073741825 : Int) - 0| * 2 = 2147483650 := by
  refine ⟨by decide, by decide, by decide, by decide, ?_⟩
  norm_num

/-- C10, amended. For guitar tablature and every notation type other than
French and Italian lute tablature (German lute tablature and the
non-tablature types included) the position is abs(course - lines) * 2 for
every course and line count for which that value is representable as an
`int`; it is symmetric about the line count, the courses lines + k and
lines - k having the same position for every k; course 2 on 5 lines of guitar
tablature is at 6. -/
theorem C10_default_position :
    (∀ (nt : data_NOTATIONTYPE) (course lines : Int),
        nt ≠ NOTATIONTYPE_tab_lute_french → nt ≠ NOTATIONTYPE_tab_lute_italian →
        fitsInt (|course - lines| * 2) →
        Tuning.CalcPitchPos course nt lines = |course - lines| * 2)
    ∧ (∀ (nt : data_NOTATIONTYPE) (lines k : Int),
        nt ≠ NOTATIONTYPE_tab_lute_french → nt ≠ NOTATIONTYPE_tab_lute_italian →
        Tuning.CalcPitchPos (lines + k) nt lines = Tuning.CalcPitchPos (lines - k) nt lines)
    ∧ Tuning.CalcPitchPos 2 NOTATIONTYPE_tab_guitar 5 = 6 := by
  refine ⟨?_, ?_, by decide⟩
  · intro nt course lines h1 h2 hfit
    have hs := spec_CalcPitchPos_default course lines nt h1 h2
    rw [← hs] at hfit ⊢
    exact CalcPitchPos_eq_spec course lines nt hfit
  · intro nt lines k h1 h2
    rw [CalcPitchPos_default _ lines nt h1 h2, CalcPitchPos_default _ lines nt h1 h2]
    have e : abs (subInt (lines + k) lines) = abs (subInt (lines - k) lines) := by
      unfold abs subInt wrapInt
      split <;> split <;> omega
    rw [e]

/-- Witness of C10 as amended: in German lute tablature course 8 on 5 lines is
at abs(8 - 5) * 2, a representable value. -/
theorem C10_default_position_witness :
    Tuning.CalcPitchPos 8 NOTATIONTYPE_tab_lute_german 5 = |(8 : Int) - 5| * 2 :=
  C10_default_position.1 NOTATIONTYPE_tab_lute_german 8 5 (by decide) (by decide)
    (by norm_num [fitsInt, INT_MIN, INT_MAX])

/-- C11. In each of the three presets the open pitch of course i is strictly
greater than the open pitch of course j whenever 1 <= i < j <= 6; hence, with
fret 0 and no usable course tuning for the two courses, `CalcPitchNumber`
returns a strictly greater pitch for course i than for course j. -/
theorem C11_presets_high_to_low (t : Target) :
    (∀ i j : Int, 1 ≤ i → i < j → j ≤ 6 →
        ([64, 59, 55, 50, 45, 40] : List Int).getD (j - 1).toNat 0
            < ([64, 59, 55, 50, 45, 40] : List Int).getD (i - 1).toNat 0
        ∧ ([64, 59, 55, 50, 45, 38] : List Int).getD (j - 1).toNat 0
            < ([64, 59, 55, 50, 45, 38] : List Int).getD (i - 1).toNat 0
        ∧ ([67, 62, 57, 53, 48, 43] : List Int).getD (j - 1).toNat 0
            < ([67, 62, 57, 53, 48, 43] : List Int).getD (i - 1).toNat 0)
    ∧ guitarPitch = [64, 59, 55, 50, 45, 40]
    ∧ guitarDropDPitch = [64, 59, 55, 50, 45, 38]
    ∧ lutePitch = [67, 62, 57, 53, 48, 43]
    ∧ (∀ (self : Tuning) (nt : data_NOTATIONTYPE) (i j : Int),
        1 ≤ i → i < j → j ≤ 6 →
        explicitTuning t (self.FindCourse i) = none →
        explicitTuning t (self.FindCourse j) = none →
        ∃ a b : Int, Tuning.CalcPitchNumber t self i 0 nt = some a
          ∧ Tuning.CalcPitchNumber t self j 0 nt = some b ∧ b < a) := by
  refine ⟨?_, rfl, rfl, rfl, ?_⟩
  · intro i j h1 hij h6
    exact ⟨preset_strictly_decreasing guitarPitch (Or.inl rfl) i j h1 hij h6,
      preset_strictly_decreasing guitarDropDPitch (Or.inr (Or.inl rfl)) i j h1 hij h6,
      preset_strictly_decreasing lutePitch (Or.inr (Or.inr rfl)) i j h1 hij h6⟩
  · intro self nt i j h1 hij h6 hi hj
    refine ⟨_, _, CalcPitchNumber_preset_in_range t self i 0 nt hi h1 (by omega),
      CalcPitchNumber_preset_in_range t self j 0 nt hj (by omega) h6, ?_⟩
    have hdec := preset_strictly_decreasing _ (selectPitch_fst_cases t self nt) i j h1 hij h6
    have bi := preset_entry_bounds _ (selectPitch_fst_cases t self nt) i h1 (by omega)
    have bj := preset_entry_bounds _ (selectPitch_fst_cases t self nt) j (by omega) h6
    unfold wrapInt
    omega

/-- Witness of C11: under the renaissance lute standard course 2 sounds higher
than course 5. -/
theorem C11_presets_high_to_low_witness :
    ∃ a b : Int,
      Tuning.CalcPitchNumber target32 (Tuning.bare COURSETUNING_lute_renaissance_6) 2 0
          NOTATIONTYPE_tab_lute_french = some a
      ∧ Tuning.CalcPitchNumber target32 (Tuning.bare COURSETUNING_lute_renaissance_6) 5 0
          NOTATIONTYPE_tab_lute_french = some b
      ∧ b < a :=
  (C11_presets_high_to_low target32).2.2.2.2 (Tuning.bare COURSETUNING_lute_renaissance_6)
    NOTATIONTYPE_tab_lute_french 2 5 (by decide) (by decide) (by decide) rfl rfl

/-- C13. The fret is a semitone offset added to the open pitch: for a course
for which the search finds a course tuning with pitch name and octave, and for
a course between 1 and 6 without usable course tuning, the call with fret 0
returns a pitch p and the call with fret f returns p + f, for every integer f,
negative or large, for which p + f is representable as an `int`; for any f it
returns p + f reduced modulo 2^32 into the range of `int`. -/
theorem C13_fret_is_offset (t : Target) (self : Tuning) (course f : Int)
    (nt : data_NOTATIONTYPE)
    (h : (∃ c, self.FindCourse course = some c ∧ c.HasPname = true ∧ c.HasOct t = true)
      ∨ (explicitTuning t (self.FindCourse course) = none ∧ 1 ≤ course ∧ course ≤ 6)) :
    ∃ p : Int, Tuning.CalcPitchNumber t self course 0 nt = some p
      ∧ Tuning.CalcPitchNumber t self course f nt = some (wrapInt (p + f))
      ∧ (fitsInt (p + f) → Tuning.CalcPitchNumber t self course f nt = some (p + f)) := by
  have key : ∀ e : Int,
      Tuning.CalcPitchNumber t self course 0 nt = some (wrapInt (e + 0)) →
      Tuning.CalcPitchNumber t self course f nt = some (wrapInt (e + f)) →
      ∃ p : Int, Tuning.CalcPitchNumber t self course 0 nt = some p
        ∧ Tuning.CalcPitchNumber t self course f nt = some (wrapInt (p + f))
        ∧ (fitsInt (p + f) → Tuning.CalcPitchNumber t self course f nt = some (p + f)) := by
    intro e h0 hf
    have hw : wrapInt (wrapInt (e + 0) + f) = wrapInt (e + f) := by
      rw [wrapInt_wrapInt_add, add_zero]
    refine ⟨wrapInt (e + 0), h0, ?_, fun hfit => ?_⟩
    · rw [hf, hw]
    · rw [hf, ← hw, wrapInt_of_fitsInt _ hfit]
  rcases h with ⟨c, hfind, hp, ho⟩ | ⟨hno, h1, h6⟩
  · have e : explicitTuning t (self.FindCourse course) = some c := by
      rw [hfind]
      exact explicitTuning_some t c hp ho
    exact key _ (CalcPitchNumber_explicit t self course 0 nt c e)
      (CalcPitchNumber_explicit t self course f nt c e)
  · exact key _ (CalcPitchNumber_preset_in_range t self course 0 nt hno h1 h6)
      (CalcPitchNumber_preset_in_range t self course f nt hno h1 h6)

/-- Witness of C13: course 6 of the guitar preset with the fret -2. -/
theorem C13_fret_is_offset_witness :
    ∃ p : Int,
      Tuning.CalcPitchNumber target32 (Tuning.bare COURSETUNING_NONE) 6 0 NOTATIONTYPE_tab_guitar
          = some p
      ∧ Tuning.CalcPitchNumber target32 (Tuning.bare COURSETUNING_NONE) 6 (-2)
          NOTATIONTYPE_tab_guitar = some (wrapInt (p + -2))
      ∧ (fitsInt (p + -2) →
          Tuning.CalcPitchNumber target32 (Tuning.bare COURSETUNING_NONE) 6 (-2)
            NOTATIONTYPE_tab_guitar = some (p + -2)) :=
  C13_fret_is_offset target32 (Tuning.bare COURSETUNING_NONE) 6 (-2) NOTATIONTYPE_tab_guitar
    (Or.inr ⟨rfl, by decide, by decide⟩)

/-- C14. For a course number that is 0 or negative, without usable course
tuning, `CalcPitchNumber` returns 0 for every fret, notation type and tuning
standard: the fret is not added, and no entry of the table is read, the return
statement giving 0 for any table and bound, the empty table included. -/
theorem C14_nonpositive_course_sentinel (t : Target) (self : Tuning) (course fret : Int)
    (nt : data_NOTATIONTYPE)
    (hno : explicitTuning t (self.FindCourse course) = none) (hc : course ≤ 0) :
    Tuning.CalcPitchNumber t self course fret nt = some 0
    ∧ Tuning.CalcPitchNumber t self course fret nt
        = presetResult (self.selectPitch t nt).1 (self.selectPitch t nt).2 course fret
    ∧ (∀ (pitch : List Int) (pitchSize : Int), presetResult pitch pitchSize course fret = some 0)
    ∧ presetResult [] (self.selectPitch t nt).2 course fret = some 0 := by
  have hall : ∀ (pitch : List Int) (pitchSize : Int),
      presetResult pitch pitchSize course fret = some 0 := by
    intro pitch pitchSize
    have hcond : ¬ (0 < course ∧ course ≤ pitchSize) := by omega
    rw [presetResult, if_neg hcond]
  refine ⟨?_, CalcPitchNumber_eq_presetResult t self course fret nt hno, hall, hall _ _⟩
  rw [CalcPitchNumber_eq_presetResult t self course fret nt hno]
  exact hall _ _

/-- Witness of C14: course 0 with fret 5 under the guitar drop D standard. -/
theorem C14_nonpositive_course_sentinel_witness :
    Tuning.CalcPitchNumber target32 (Tuning.bare COURSETUNING_guitar_drop_D) 0 5
        NOTATIONTYPE_tab_guitar = some 0 :=
  (C14_nonpositive_course_sentinel target32 (Tuning.bare COURSETUNING_guitar_drop_D) 0 5
    NOTATIONTYPE_tab_guitar rfl (by decide)).1

/-- C15. The first tier uses the first course child, in document order, whose
number is the requested one, and the search reports absence when there is
none: with children that all have another number the result is that of the
element without children; a child with another number, wherever it stands,
and the children after the first one with the requested number never change
the result. -/
theorem C15_first_course_in_document_order (t : Target) (ts : data_COURSETUNING)
    (course fret : Int) (nt : data_NOTATIONTYPE) :
    (∀ (pre post : List CourseElement) (e : CourseElement),
        (∀ x ∈ pre, x.n ≠ to_string course) → e.n = to_string course →
        (Tuning.ofChildren ts (pre ++ e :: post)).FindCourse course = some e.course
        ∧ Tuning.CalcPitchNumber t (Tuning.ofChildren ts (pre ++ e :: post)) course fret nt
            = Tuning.CalcPitchNumber t (Tuning.ofChildren ts [e]) course fret nt)
    ∧ (∀ children : List CourseElement,
        (∀ x ∈ children, x.n ≠ to_string course) →
        (Tuning.ofChildren ts children).FindCourse course = none
        ∧ Tuning.CalcPitchNumber t (Tuning.ofChildren ts children) course fret nt
            = Tuning.CalcPitchNumber t (Tuning.bare ts) course fret nt)
    ∧ (∀ (pre post : List CourseElement) (x : CourseElement),
        x.n ≠ to_string course →
        Tuning.CalcPitchNumber t (Tuning.ofChildren ts (pre ++ x :: post)) course fret nt
          = Tuning.CalcPitchNumber t (Tuning.ofChildren ts (pre ++ post)) course fret nt)
    ∧ (∀ (pre post post2 : List CourseElement) (e : CourseElement),
        e.n = to_string course →
        Tuning.CalcPitchNumber t (Tuning.ofChildren ts (pre ++ e :: post)) course fret nt
          = Tuning.CalcPitchNumber t (Tuning.ofChildren ts (pre ++ e :: post2)) course fret nt) := by
  refine ⟨?_, ?_, ?_, ?_⟩
  · intro pre post e hpre he
    have hfind : FindDescendantByComparison (pre ++ e :: post) course = some e.course := by
      rw [FindDescendantByComparison_skip pre (e :: post) course hpre,
        FindDescendantByComparison_hit e post course he]
    refine ⟨hfind, ?_⟩
    refine CalcPitchNumber_congr t _ _ course fret nt (Eq.refl ts) ?_
    show FindDescendantByComparison (pre ++ e :: post) course
      = FindDescendantByComparison [e] course
    rw [hfind, FindDescendantByComparison_hit e [] course he]
  · intro children hall
    have hfind : FindDescendantByComparison children course = none := by
      have := FindDescendantByComparison_skip children [] course hall
      rw [List.append_nil] at this
      rw [this]
      rfl
    refine ⟨hfind, ?_⟩
    exact CalcPitchNumber_congr t _ _ course fret nt (Eq.refl ts) hfind
  · intro pre post x hx
    exact CalcPitchNumber_congr t _ _ course fret nt (Eq.refl ts)
      (FindDescendantByComparison_insert pre post x course hx)
  · intro pre post post2 e he
    exact CalcPitchNumber_congr t _ _ course fret nt (Eq.refl ts)
      (FindDescendantByComparison_later pre post post2 e course he)

/-- Witness of C15: of two children numbered 2 the first one, g sharp in
octave 3, decides, after a child numbered 1 has been passed over. -/
theorem C15_first_course_in_document_order_witness :
    (Tuning.ofChildren COURSETUNING_NONE
        ([⟨"1", ⟨PITCHNAME_c, 4, ACCIDENTAL_WRITTEN_NONE⟩⟩]
          ++ ⟨"2", ⟨PITCHNAME_g, 3, ACCIDENTAL_WRITTEN_s⟩⟩
            :: [⟨"2", ⟨PITCHNAME_a, 3, ACCIDENTAL_WRITTEN_NONE⟩⟩])).FindCourse 2
      = some ⟨PITCHNAME_g, 3, ACCIDENTAL_WRITTEN_s⟩ :=
  ((C15_first_course_in_document_order target32 COURSETUNING_NONE 2 1
      NOTATIONTYPE_tab_guitar).1
    [⟨"1", ⟨PITCHNAME_c, 4, ACCIDENTAL_WRITTEN_NONE⟩⟩]
    [⟨"2", ⟨PITCHNAME_a, 3, ACCIDENTAL_WRITTEN_NONE⟩⟩]
    ⟨"2", ⟨PITCHNAME_g, 3, ACCIDENTAL_WRITTEN_s⟩⟩ (by decide) (by decide)).1

/-- C16, refuted as stated. In guitar tablature course 1073741825, which is at
least 1, on 0 lines is at the negative position -2147483646, although the
notation type is not French lute tablature. So a negative position does not
occur in French lute tablature only. -/
theorem C16_negative_guitar_counterexample :
    (1 : Int) ≤ 1073741825 ∧ fitsInt 1073741825 ∧ fitsInt 0
    ∧ Tuning.CalcPitchPos 1073741825 NOTATIONTYPE_tab_guitar 0 = -2147483646
    ∧ Tuning.CalcPitchPos 1073741825 NOTATIONTYPE_tab_guitar 0 < 0
    ∧ NOTATIONTYPE_tab_guitar ≠ NOTATIONTYPE_tab_lute_french
    ∧ ¬ (Tuning.CalcPitchPos 1073741825 NOTATIONTYPE_tab_guitar 0 < 0
          ↔ NOTATIONTYPE_tab_guitar = NOTATIONTYPE_tab_lute_french ∧ (0 : Int) < min 1073741825 7) := by
  decide

/-- C16, amended. For a course number of at least 1 and a line count for which
the position of the specification is representable as an `int`, the position
is negative exactly when the notation type is French lute tablature and the
line count is below min(course, 7); for Italian lute tablature, guitar
tablature and every other notation type it is at least 0. -/
theorem C16_negative_position (course lines : Int) (nt : data_NOTATIONTYPE) (h1 : 1 ≤ course)
    (hfit : fitsInt (spec_CalcPitchPos course nt lines)) :
    (Tuning.CalcPitchPos course nt lines < 0
      ↔ nt = NOTATIONTYPE_tab_lute_french ∧ lines < min course 7)
    ∧ (nt ≠ NOTATIONTYPE_tab_lute_french → 0 ≤ Tuning.CalcPitchPos course nt lines) := by
  rw [CalcPitchPos_eq_spec course lines nt hfit]
  by_cases hf : nt = NOTATIONTYPE_tab_lute_french
  · subst hf
    refine ⟨?_, fun h => absurd rfl h⟩
    simp only [spec_CalcPitchPos, true_and]
    constructor <;> intro h <;> omega
  · have hnonneg : 0 ≤ spec_CalcPitchPos course nt lines := by
      by_cases hi : nt = NOTATIONTYPE_tab_lute_italian
      · subst hi
        simp only [spec_CalcPitchPos]
        omega
      · rw [spec_CalcPitchPos_default course lines nt hf hi]
        have := abs_nonneg (course - lines)
        omega
    refine ⟨?_, fun _ => hnonneg⟩
    constructor
    · intro h
      omega
    · intro h
      exact absurd h.1 hf

/-- Witness of C16 as amended: course 9 on 5 lines of French lute tablature is
drawn at a negative position, 5 being below min(9, 7). -/
theorem C16_negative_position_witness :
    Tuning.CalcPitchPos 9 NOTATIONTYPE_tab_lute_french 5 < 0 :=
  (C16_negative_position 9 5 NOTATIONTYPE_tab_lute_french (by decide) (by decide)).1.mpr
    ⟨rfl, by decide⟩

/-- C17. In French lute tablature the position is an odd number, and for every
other notation type it is an even number, for every course and line count. -/
theorem C17_position_parity (course lines : Int) (nt : data_NOTATIONTYPE) :
    (nt = NOTATIONTYPE_tab_lute_french → Odd (Tuning.CalcPitchPos course nt lines))
    ∧ (nt ≠ NOTATIONTYPE_tab_lute_french → Even (Tuning.CalcPitchPos course nt lines)) := by
  constructor
  · intro hf
    subst hf
    rw [Int.odd_iff]
    simp only [Tuning.CalcPitchPos, addInt, mulInt, subInt, wrapInt]
    omega
  · intro hf
    rw [Int.even_iff]
    by_cases hi : nt = NOTATIONTYPE_tab_lute_italian
    · subst hi
      simp only [Tuning.CalcPitchPos, mulInt, subInt, wrapInt]
      omega
    · rw [CalcPitchPos_default course lines nt hf hi]
      unfold mulInt wrapInt
      omega

/-- Witness of C17: course 9 on 5 lines of French lute tablature is at an odd
position. -/
theorem C17_position_parity_witness :
    Odd (Tuning.CalcPitchPos 9 NOTATIONTYPE_tab_lute_french 5) :=
  (C17_position_parity 9 5 NOTATIONTYPE_tab_lute_french).1 rfl

/-- C18, refuted as stated. In guitar tablature on 2147483647 lines, the
greatest `int`, course 1 is at -4 and not at (2147483647 - 1) * 2; and
although 1 < 1073741824 <= 2147483647, the position of course 1073741824,
which is 2147483646, is not below the position of course 1. So neither the
formula nor the strict decrease holds for every line count of at least 1. -/
theorem C18_every_lines_counterexample :
    (1 : Int) ≤ 2147483647 ∧ fitsInt 2147483647
    ∧ Tuning.CalcPitchPos 1 NOTATIONTYPE_tab_guitar 2147483647 = -4
    ∧ Tuning.CalcPitchPos 1 NOTATIONTYPE_tab_guitar 2147483647 ≠ (2147483647 - 1) * 2
    ∧ (1 : Int) < 1073741824 ∧ (1073741824 : Int) ≤ 2147483647
    ∧ Tuning.CalcPitchPos 1073741824 NOTATIONTYPE_tab_guitar 2147483647 = 2147483646
    ∧ ¬ (Tuning.CalcPitchPos 1073741824 NOTATIONTYPE_tab_guitar 2147483647
          < Tuning.CalcPitchPos 1 NOTATIONTYPE_tab_guitar 2147483647) := by
  decide

/-- C18, amended. In guitar tablature with at least one line and at most
1073741824 lines, so that (lines - 1) * 2 is representable as an `int`, a
course between 1 and the line count is at (lines - course) * 2; over these
courses the position is strictly decreasing in the course, hence pairwise
distinct, with course 1 at (lines - 1) * 2 and the course lines at 0; for any
line count a course above it has the position of the course
2 * lines - course. -/
theorem C18_guitar_positions (lines : Int) (hl : 1 ≤ lines) (hmax : lines ≤ 1073741824) :
    (∀ course : Int, 1 ≤ course → course ≤ lines →
        Tuning.CalcPitchPos course NOTATIONTYPE_tab_guitar lines = (lines - course) * 2)
    ∧ (∀ c1 c2 : Int, 1 ≤ c1 → c1 < c2 → c2 ≤ lines →
        Tuning.CalcPitchPos c2 NOTATIONTYPE_tab_guitar lines
          < Tuning.CalcPitchPos c1 NOTATIONTYPE_tab_guitar lines)
    ∧ (∀ c1 c2 : Int, 1 ≤ c1 → c1 ≤ lines → 1 ≤ c2 → c2 ≤ lines →
        Tuning.CalcPitchPos c1 NOTATIONTYPE_tab_guitar lines
          = Tuning.CalcPitchPos c2 NOTATIONTYPE_tab_guitar lines → c1 = c2)
    ∧ Tuning.CalcPitchPos 1 NOTATIONTYPE_tab_guitar lines = (lines - 1) * 2
    ∧ Tuning.CalcPitchPos lines NOTATIONTYPE_tab_guitar lines = 0
    ∧ (∀ lines2 course : Int, lines2 < course →
        Tuning.CalcPitchPos course NOTATIONTYPE_tab_guitar lines2
          = Tuning.CalcPitchPos (2 * lines2 - course) NOTATIONTYPE_tab_guitar lines2) := by
  have key : ∀ course : Int, 1 ≤ course → course ≤ lines →
      Tuning.CalcPitchPos course NOTATIONTYPE_tab_guitar lines = (lines - course) * 2 := by
    intro course h1 h
    simp only [Tuning.CalcPitchPos, mulInt, abs, subInt, wrapInt]
    split <;> omega
  refine ⟨key, ?_, ?_, key 1 (le_refl 1) hl, ?_, ?_⟩
  · intro c1 c2 h1 h12 h2
    rw [key c1 h1 (by omega), key c2 (by omega) h2]
    omega
  · intro c1 c2 h1 h1l h2 h2l he
    rw [key c1 h1 h1l, key c2 h2 h2l] at he
    omega
  · rw [key lines hl (le_refl lines)]
    omega
  · intro lines2 course _
    simp only [Tuning.CalcPitchPos, mulInt]
    have e : abs (subInt course lines2) = abs (subInt (2 * lines2 - course) lines2) := by
      unfold abs subInt wrapInt
      split <;> split <;> omega
    rw [e]

/-- Witness of C18 as amended: on 6 lines of guitar tablature course 2 is at
(6 - 2) * 2. -/
theorem C18_guitar_positions_witness :
    Tuning.CalcPitchPos 2 NOTATIONTYPE_tab_guitar 6 = (6 - 2) * 2 :=
  (C18_guitar_positions 6 (by decide) (by decide)).1 2 (by decide) (by decide)

end vrv
